import Mathlib

/-!
Verification of the todo-list state store and persistence adapter of
`src/my-app/app/page.tsx` (a reducer-driven single-page task list).

The reducer `todoReducer` is embedded directly.  The two impure
ingredients of the `ADD_TODO` branch — `crypto.randomUUID()` and
`new Date().toISOString()` — are modelled as explicit string parameters
`freshId` and `now` of the transition function.

Persistence (`localStorage` + `JSON.stringify` / `JSON.parse`) is
modelled at the JSON-value level: the single storage entry is a
`StorageCell`, which records whether the stored string is absent, empty,
syntactically invalid JSON, or parses to a JSON value.  `JSON.stringify`
on an array of todos always produces a non-empty string that
`JSON.parse` maps back to the same JSON value, so `save` stores the
encoded JSON value directly.  JSON numbers are modelled as integers;
no claim here involves numeric fields.
-/

namespace TodoApp

/-- The `Todo` record of `page.tsx`: `{id, text, completed, createdAt}`. -/
structure Todo where
  id : String
  text : String
  completed : Bool
  createdAt : String
deriving DecidableEq, Repr

/-- The `Action` sum type of `page.tsx`: `SET_TODOS`, `ADD_TODO`,
`TOGGLE_TODO`, `DELETE_TODO`, `UPDATE_TODO`. -/
inductive Action where
  | setTodos (payload : List Todo)
  | addTodo (payload : String)
  | toggleTodo (payload : String)
  | deleteTodo (payload : String)
  | updateTodo (id : String) (text : String)
deriving DecidableEq, Repr

/-- `todoReducer` of `page.tsx`.  `freshId` stands for the
`crypto.randomUUID()` call and `now` for `new Date().toISOString()` in
the `ADD_TODO` branch; all other branches ignore them.  The TS `default`
branch is unreachable because `Action` is a closed sum. -/
def todoReducer (freshId now : String) (state : List Todo) (action : Action) : List Todo :=
  match action with
  | .setTodos payload => payload
  | .addTodo payload =>
      state ++ [{ id := freshId, text := payload, completed := false, createdAt := now }]
  | .toggleTodo payload =>
      state.map (fun t => if t.id = payload then { t with completed := !t.completed } else t)
  | .deleteTodo payload =>
      state.filter (fun t => t.id ≠ payload)
  | .updateTodo id text =>
      state.map (fun t => if t.id = id then { t with text := text } else t)

/-- Claim C1: `ADD_TODO` with payload `s` returns a list of length
`|L| + 1` whose first `|L|` elements are the elements of `L` unchanged,
followed by one new task at the end with `text = s`,
`completed = false`, the freshly generated id, and the creation
timestamp. -/
theorem add_appends_new_task (L : List Todo) (s freshId now : String) :
    (todoReducer freshId now L (.addTodo s)).length = L.length + 1 ∧
    (todoReducer freshId now L (.addTodo s)).take L.length = L ∧
    (todoReducer freshId now L (.addTodo s)) =
      L ++ [{ id := freshId, text := s, completed := false, createdAt := now }] := by
  refine ⟨?_, ?_, rfl⟩
  · simp [todoReducer]
  · simp [todoReducer]

/-- Mapping a `match on id` transformation over a list with no matching
id leaves the list unchanged. -/
theorem map_match_eq_self (g : Todo → Todo) (x : String) (l : List Todo)
    (h : ∀ t ∈ l, t.id ≠ x) :
    l.map (fun t => if t.id = x then g t else t) = l := by
  induction l with
  | nil => rfl
  | cons a l ih =>
      simp only [List.map_cons]
      rw [if_neg (h a (List.mem_cons_self a l)), ih (fun t ht => h t (List.mem_cons_of_mem a ht))]

/-- If `x` is not among the ids of `l`, every element of `l` has id `≠ x`. -/
theorem forall_ne_of_not_mem_map {x : String} {l : List Todo}
    (h : x ∉ l.map Todo.id) : ∀ t ∈ l, t.id ≠ x :=
  fun t ht he => h (he ▸ List.mem_map_of_mem Todo.id ht)

/-- Filtering out id `x` from a list with no matching id leaves the list
unchanged. -/
theorem filter_ne_eq_self (x : String) (l : List Todo)
    (h : ∀ t ∈ l, t.id ≠ x) :
    l.filter (fun t => t.id ≠ x) = l :=
  List.filter_eq_self.mpr (fun a ha => by simpa using h a ha)

/-- Claim C2: on a list whose sole item with id `x` is `t`, `TOGGLE_TODO x`
flips the `completed` flag of `t` (leaving its `id`, `text`, `createdAt`
unchanged) and leaves every other item, the order and the length
unchanged. -/
theorem toggle_flips_unique_match (L₁ L₂ : List Todo) (t : Todo) (x freshId now : String)
    (ht : t.id = x) (h₁ : x ∉ L₁.map Todo.id) (h₂ : x ∉ L₂.map Todo.id) :
    todoReducer freshId now (L₁ ++ t :: L₂) (.toggleTodo x) =
      L₁ ++ { t with completed := !t.completed } :: L₂ := by
  simp only [todoReducer, List.map_append, List.map_cons, if_pos ht]
  rw [map_match_eq_self _ _ _ (forall_ne_of_not_mem_map h₁),
    map_match_eq_self _ _ _ (forall_ne_of_not_mem_map h₂)]

/-- Witness for C2 at a concrete three-item list. -/
theorem toggle_flips_unique_match_witness :
    todoReducer "f" "n"
        ([⟨"b", "one", false, "c1"⟩] ++ ⟨"a", "two", false, "c2"⟩ :: [⟨"d", "three", true, "c3"⟩])
        (.toggleTodo "a") =
      [⟨"b", "one", false, "c1"⟩] ++ ⟨"a", "two", true, "c2"⟩ :: [⟨"d", "three", true, "c3"⟩] :=
  toggle_flips_unique_match [⟨"b", "one", false, "c1"⟩] [⟨"d", "three", true, "c3"⟩]
    ⟨"a", "two", false, "c2"⟩ "a" "f" "n" rfl (by decide) (by decide)

/-- Claim C3: on a list with pairwise-distinct ids whose item with id `x`
is `t`, `DELETE_TODO x` removes exactly `t`; all other items are retained
unchanged in their original relative order. -/
theorem delete_removes_unique_match (L₁ L₂ : List Todo) (t : Todo) (x freshId now : String)
    (hnd : ((L₁ ++ t :: L₂).map Todo.id).Nodup) (ht : t.id = x) :
    todoReducer freshId now (L₁ ++ t :: L₂) (.deleteTodo x) = L₁ ++ L₂ := by
  rw [List.map_append, List.map_cons, List.nodup_append] at hnd
  obtain ⟨-, hnd₂, hdisj⟩ := hnd
  have h₁ : x ∉ L₁.map Todo.id := fun hx =>
    hdisj hx (ht ▸ List.mem_cons_self t.id (L₂.map Todo.id))
  have h₂ : x ∉ L₂.map Todo.id := ht ▸ (List.nodup_cons.mp hnd₂).1
  simp only [todoReducer, List.filter_append, List.filter_cons]
  rw [filter_ne_eq_self _ _ (forall_ne_of_not_mem_map h₁),
    filter_ne_eq_self _ _ (forall_ne_of_not_mem_map h₂)]
  simp [ht]

/-- Witness for C3 at a concrete three-item list. -/
theorem delete_removes_unique_match_witness :
    todoReducer "f" "n"
        ([⟨"b", "one", false, "c1"⟩] ++ ⟨"a", "two", false, "c2"⟩ :: [⟨"d", "three", true, "c3"⟩])
        (.deleteTodo "a") =
      [⟨"b", "one", false, "c1"⟩] ++ [⟨"d", "three", true, "c3"⟩] :=
  delete_removes_unique_match [⟨"b", "one", false, "c1"⟩] [⟨"d", "three", true, "c3"⟩]
    ⟨"a", "two", false, "c2"⟩ "a" "f" "n" (by decide) rfl

/-- Claim C4: when no item of `L` has id `x`, `TOGGLE_TODO x`,
`DELETE_TODO x` and `UPDATE_TODO {x, s}` each return `L` unchanged
(a silent no-op, never an error). -/
theorem unmatched_id_noop (L : List Todo) (x s freshId now : String)
    (h : x ∉ L.map Todo.id) :
    todoReducer freshId now L (.toggleTodo x) = L ∧
    todoReducer freshId now L (.deleteTodo x) = L ∧
    todoReducer freshId now L (.updateTodo x s) = L :=
  ⟨map_match_eq_self _ _ _ (forall_ne_of_not_mem_map h),
   filter_ne_eq_self _ _ (forall_ne_of_not_mem_map h),
   map_match_eq_self _ _ _ (forall_ne_of_not_mem_map h)⟩

/-- Witness for C4 at a concrete one-item list and an absent id. -/
theorem unmatched_id_noop_witness :
    todoReducer "f" "n" [⟨"b", "one", false, "c1"⟩] (.toggleTodo "a") = [⟨"b", "one", false, "c1"⟩] ∧
    todoReducer "f" "n" [⟨"b", "one", false, "c1"⟩] (.deleteTodo "a") = [⟨"b", "one", false, "c1"⟩] ∧
    todoReducer "f" "n" [⟨"b", "one", false, "c1"⟩] (.updateTodo "a" "s") = [⟨"b", "one", false, "c1"⟩] :=
  unmatched_id_noop [⟨"b", "one", false, "c1"⟩] "a" "s" "f" "n" (by decide)

/-- Claim C5: on a list whose sole item with id `x` is `t`,
`UPDATE_TODO {x, s}` replaces only the `text` field of `t` with `s`
(leaving its `id`, `completed`, `createdAt` unchanged) and leaves every
other item and the order unchanged. -/
theorem update_text_frame (L₁ L₂ : List Todo) (t : Todo) (x s freshId now : String)
    (ht : t.id = x) (h₁ : x ∉ L₁.map Todo.id) (h₂ : x ∉ L₂.map Todo.id) :
    todoReducer freshId now (L₁ ++ t :: L₂) (.updateTodo x s) =
      L₁ ++ { t with text := s } :: L₂ := by
  simp only [todoReducer, List.map_append, List.map_cons, if_pos ht]
  rw [map_match_eq_self _ _ _ (forall_ne_of_not_mem_map h₁),
    map_match_eq_self _ _ _ (forall_ne_of_not_mem_map h₂)]

/-- Witness for C5 at a concrete three-item list. -/
theorem update_text_frame_witness :
    todoReducer "f" "n"
        ([⟨"b", "one", false, "c1"⟩] ++ ⟨"a", "two", false, "c2"⟩ :: [⟨"d", "three", true, "c3"⟩])
        (.updateTodo "a" "new") =
      [⟨"b", "one", false, "c1"⟩] ++ ⟨"a", "new", false, "c2"⟩ :: [⟨"d", "three", true, "c3"⟩] :=
  update_text_frame [⟨"b", "one", false, "c1"⟩] [⟨"d", "three", true, "c3"⟩]
    ⟨"a", "two", false, "c2"⟩ "a" "new" "f" "n" rfl (by decide) (by decide)

/-- Claim C9: `DELETE_TODO` is idempotent: deleting id `x` twice yields
the same list as deleting it once. -/
theorem delete_idempotent (L : List Todo) (x freshId now : String) :
    todoReducer freshId now (todoReducer freshId now L (.deleteTodo x)) (.deleteTodo x) =
      todoReducer freshId now L (.deleteTodo x) := by
  simp only [todoReducer]
  exact filter_ne_eq_self x _ (fun t ht => by simpa using (List.mem_filter.mp ht).2)

/-- Splitting the length of a list by whether the item's id matches `x`. -/
theorem length_filter_ne_add (x : String) (l : List Todo) :
    (l.filter (fun t => t.id ≠ x)).length + (l.filter (fun t => t.id = x)).length = l.length := by
  induction l with
  | nil => rfl
  | cons a l ih =>
      by_cases h : a.id = x <;> simp [List.filter_cons, h, ← ih] <;> omega

/-- Claim C10: the reducer's toggle, update and delete branches act on
every item whose id matches the payload, not on exactly one: at every
position a matching item is toggled (resp. rewritten), and delete drops
all matches — so on a list with at least two matches the result is at
least two shorter — while retaining every non-matching item. -/
theorem operations_act_on_all_matches (L : List Todo) (x s freshId now : String)
    (h : 2 ≤ (L.filter (fun t => t.id = x)).length) :
    (∀ i : Nat, (todoReducer freshId now L (.toggleTodo x))[i]? =
       (L[i]?).map (fun t => if t.id = x then { t with completed := !t.completed } else t)) ∧
    (∀ i : Nat, (todoReducer freshId now L (.updateTodo x s))[i]? =
       (L[i]?).map (fun t => if t.id = x then { t with text := s } else t)) ∧
    (∀ t ∈ todoReducer freshId now L (.deleteTodo x), t.id ≠ x) ∧
    (todoReducer freshId now L (.deleteTodo x)).length + 2 ≤ L.length ∧
    (∀ t ∈ L, t.id ≠ x → t ∈ todoReducer freshId now L (.deleteTodo x)) := by
  refine ⟨?_, ?_, ?_, ?_, ?_⟩
  · intro i; simp [todoReducer]
  · intro i; simp [todoReducer]
  · intro t ht; simpa using (List.mem_filter.mp ht).2
  · have hs := length_filter_ne_add x L
    simp only [todoReducer]
    omega
  · intro t ht hne
    exact List.mem_filter.mpr ⟨ht, by simpa using hne⟩

/-- Witness for C10 at a concrete list with two items sharing id `a`:
deleting id `a` removes both. -/
theorem operations_act_on_all_matches_witness :
    (todoReducer "f" "n" [⟨"a", "x", false, "c"⟩, ⟨"a", "y", true, "d"⟩]
        (.deleteTodo "a")).length + 2 ≤
      ([(⟨"a", "x", false, "c"⟩ : Todo), ⟨"a", "y", true, "d"⟩]).length :=
  (operations_act_on_all_matches [⟨"a", "x", false, "c"⟩, ⟨"a", "y", true, "d"⟩]
    "a" "s" "f" "n" (by decide)).2.2.2.1

/-! ### Persistence adapter

The storage layer of `TodoPage`: one `localStorage` entry under the key
`todos`, written by `JSON.stringify` and read by `JSON.parse`.  The
entry is modelled at the JSON-value level by `StorageCell`. -/

/-- JSON values, as produced by `JSON.parse`.  Numbers are modelled as
integers; no claim here involves numeric data. -/
inductive Json where
  | null
  | bool (b : Bool)
  | num (n : Int)
  | str (s : String)
  | arr (elems : List Json)
  | obj (fields : List (String × Json))

/-- `JSON.stringify` of one `Todo` object, as a JSON value: fields
appear in declaration order `id, text, completed, createdAt`. -/
def encodeTodo (t : Todo) : Json :=
  .obj [("id", .str t.id), ("text", .str t.text),
        ("completed", .bool t.completed), ("createdAt", .str t.createdAt)]

/-- `JSON.stringify` of the todo list: a JSON array of `Todo` objects. -/
def encodeTodos (L : List Todo) : Json :=
  .arr (L.map encodeTodo)

/-- Modelled from the spec: deserializing a JSON value into one Task.
The code performs no such decoding — `TodoPage` installs the parsed
value unchecked — so this decoder only states what a well-formed stored
Task denotes (spec §6): an object with fields id: string, text: string,
completed: boolean, createdAt: string. -/
def decodeTodo : Json → Option Todo
  | .obj [("id", .str i), ("text", .str tx), ("completed", .bool c), ("createdAt", .str ca)] =>
      some ⟨i, tx, c, ca⟩
  | _ => none

/-- Modelled from the spec: deserializing a list of JSON values into a
sequence of Tasks; fails if any element fails. -/
def decodeTodoList : List Json → Option (List Todo)
  | [] => some []
  | v :: vs =>
      match decodeTodo v, decodeTodoList vs with
      | some t, some ts => some (t :: ts)
      | _, _ => none

/-- Modelled from the spec: deserializing a JSON value "into a sequence
of Task" (spec §4.2): a JSON array of well-formed Task objects. -/
def decodeTodos : Json → Option (List Todo)
  | .arr vs => decodeTodoList vs
  | _ => none

/-- The single `localStorage` entry under the key `todos`, as seen at
hydration: the stored string is absent (`getItem` returns null), empty
(falsy, so the load effect skips the dispatch), not syntactically valid
JSON (`JSON.parse` throws), or parses to a JSON value. -/
inductive StorageCell where
  | absent
  | emptyStr
  | invalid
  | json (v : Json)

/-- The hydration effect of `TodoPage` (first `useEffect`): reads the
entry; on a truthy string dispatches `SET_TODOS` with the parsed value,
installing it as the state unchecked; a thrown parse error is caught,
logged, and leaves the initial state `[]`.  The resulting state is a raw
JS value, represented as `Json`; the initial empty list is the JSON
array `[]`. -/
def hydrate : StorageCell → Json
  | .absent => .arr []
  | .emptyStr => .arr []
  | .invalid => .arr []
  | .json v => v

/-- The save effect of `TodoPage` (second `useEffect`):
`localStorage.setItem` with `JSON.stringify(todos)`.  `JSON.stringify`
of a todo array is a non-empty string that `JSON.parse` maps back to the
same JSON value, so the resulting cell holds the encoded value. -/
def save (todos : List Todo) : StorageCell :=
  .json (encodeTodos todos)

/-- A stored value in the spec's "corrupted" sense: it cannot be
deserialized into a sequence of Task — the string is empty or not valid
JSON, or it parses to a JSON value that is not a well-formed Task
array. -/
def corrupted : StorageCell → Prop
  | .absent => False
  | .emptyStr => True
  | .invalid => True
  | .json v => decodeTodos v = none

/-- Decoding inverts encoding on a single Task. -/
theorem decodeTodo_encodeTodo (t : Todo) : decodeTodo (encodeTodo t) = some t := rfl

/-- Claim C6: `Save(L)` followed by `Load()` yields the JSON encoding of
`L`, which deserializes back to a list value-equal to `L` — for every
list, the empty list included. -/
theorem save_load_roundtrip (L : List Todo) :
    hydrate (save L) = encodeTodos L ∧
    decodeTodos (hydrate (save L)) = some L := by
  refine ⟨rfl, ?_⟩
  show decodeTodoList (L.map encodeTodo) = some L
  induction L with
  | nil => rfl
  | cons t ts ih => simp [decodeTodoList, decodeTodo_encodeTodo, ih]

/-- Counterexample to claim C7: the stored string `42` is corrupted (it
parses as JSON but is no Task array), yet hydration does not yield the
empty list — the parsed value is installed as the state unchecked. -/
theorem hydration_shape_counterexample :
    corrupted (StorageCell.json (Json.num 42)) ∧
    hydrate (StorageCell.json (Json.num 42)) ≠ Json.arr [] ∧
    decodeTodos (hydrate (StorageCell.json (Json.num 42))) = none :=
  ⟨rfl, fun h => Json.noConfusion h, rfl⟩

/-- Claim C7 (amended): if the stored value is absent, empty, or not
syntactically valid JSON, hydration yields the empty list; but a stored
value that parses as JSON is installed as the state unchecked, whatever
its shape. -/
theorem hydration_parse_failure_empty :
    hydrate .absent = Json.arr [] ∧
    hydrate .emptyStr = Json.arr [] ∧
    hydrate .invalid = Json.arr [] ∧
    ∀ v : Json, hydrate (.json v) = v :=
  ⟨rfl, rfl, rfl, fun _ => rfl⟩

/-! ### Reachable states and the id-uniqueness invariant -/

/-- States reachable from the initial empty list by reducer transitions,
with arbitrary generated ids and timestamps.  Hydration dispatches
`SET_TODOS`, so hydrated starts are covered by a first `setTodos`
step. -/
inductive Reachable : List Todo → Prop where
  | init : Reachable []
  | step (freshId now : String) (a : Action) {L : List Todo} :
      Reachable L → Reachable (todoReducer freshId now L a)

/-- Counterexample to claim C8: a state with two items sharing the id
`a` is reachable from the empty list — `SET_TODOS` installs its payload
without validation. -/
theorem reachable_duplicate_ids :
    Reachable [⟨"a", "x", false, "c"⟩, ⟨"a", "x", false, "c"⟩] ∧
    ¬ (([(⟨"a", "x", false, "c"⟩ : Todo), ⟨"a", "x", false, "c"⟩].map Todo.id).Nodup) :=
  ⟨Reachable.step "f" "n"
      (.setTodos [⟨"a", "x", false, "c"⟩, ⟨"a", "x", false, "c"⟩]) Reachable.init,
   by decide⟩

/-- Reachability restricted to the well-behaved transitions the spec
assumes: every `SET_TODOS` payload has pairwise-distinct ids, and every
`ADD_TODO` uses a generated id not already present in the list (the
spec's "freshly generated unique id").  Toggle, delete and update are
unrestricted. -/
inductive ReachableUnique : List Todo → Prop where
  | init : ReachableUnique []
  | set (freshId now : String) (P : List Todo) {L : List Todo} :
      ReachableUnique L → (P.map Todo.id).Nodup →
      ReachableUnique (todoReducer freshId now L (.setTodos P))
  | add (freshId now s : String) {L : List Todo} :
      ReachableUnique L → freshId ∉ L.map Todo.id →
      ReachableUnique (todoReducer freshId now L (.addTodo s))
  | toggle (freshId now x : String) {L : List Todo} :
      ReachableUnique L → ReachableUnique (todoReducer freshId now L (.toggleTodo x))
  | del (freshId now x : String) {L : List Todo} :
      ReachableUnique L → ReachableUnique (todoReducer freshId now L (.deleteTodo x))
  | update (freshId now x s : String) {L : List Todo} :
      ReachableUnique L → ReachableUnique (todoReducer freshId now L (.updateTodo x s))

/-- Toggling preserves the id sequence of the list. -/
theorem toggle_preserves_ids (x freshId now : String) (l : List Todo) :
    (todoReducer freshId now l (.toggleTodo x)).map Todo.id = l.map Todo.id := by
  simp only [todoReducer, List.map_map]
  exact List.map_congr_left (fun t _ => by by_cases h : t.id = x <;> simp [h])

/-- Updating a text preserves the id sequence of the list. -/
theorem update_preserves_ids (x s freshId now : String) (l : List Todo) :
    (todoReducer freshId now l (.updateTodo x s)).map Todo.id = l.map Todo.id := by
  simp only [todoReducer, List.map_map]
  exact List.map_congr_left (fun t _ => by by_cases h : t.id = x <;> simp [h])

/-- Claim C8 (amended): in every state reachable by transitions whose
`SET_TODOS` payloads have pairwise-distinct ids and whose `ADD_TODO`
steps use an id not already present, no two items share the same id. -/
theorem unique_reachable_ids_nodup {L : List Todo} (h : ReachableUnique L) :
    (L.map Todo.id).Nodup := by
  induction h with
  | init => simp
  | set freshId now P _ hP _ => simpa [todoReducer] using hP
  | add freshId now s _ hfresh ih =>
      simp only [todoReducer, List.map_append, List.map_cons, List.map_nil]
      exact List.Nodup.append ih (List.nodup_singleton _)
        (fun a ha hb => hfresh (by simp at hb; exact hb ▸ ha))
  | toggle freshId now x _ ih =>
      rw [toggle_preserves_ids]
      exact ih
  | del freshId now x _ ih =>
      exact ((List.filter_sublist _).map Todo.id).nodup ih
  | update freshId now x s _ ih =>
      rw [update_preserves_ids]
      exact ih

/-- Witness for the amended C8: a concrete state reached by one valid
`SET_TODOS` step has pairwise-distinct ids. -/
theorem unique_reachable_ids_nodup_witness :
    (([(⟨"a", "x", false, "c"⟩ : Todo), ⟨"b", "y", true, "d"⟩].map Todo.id)).Nodup :=
  unique_reachable_ids_nodup
    (ReachableUnique.set "f" "n" [⟨"a", "x", false, "c"⟩, ⟨"b", "y", true, "d"⟩]
      ReachableUnique.init (by decide))

end TodoApp
